import Mathlib

/-!
Shallow embedding of the spinel-based Thread controller `otbr::Ncp::NcpSpinel`
(`src/src/ncp/ncp_spinel.hpp`).  The header file provides the class layout,
the constants `kMaxTids = 16` and `kTxBufferSize = 2048`, and the inline
bodies of `FreeTid` and `CallAndClear`; the remaining member-function bodies
are declared but their translation unit is not part of the sources, so they
are modelled from the specification (each such definition carries a
`Modelled from the spec:` doc comment).
-/

namespace Otbr

/-- Subset of `otError` result codes used by this controller. -/
inductive OtError where
  | ok
  | failed
  | busy
  | noBufs
  | abort
  deriving DecidableEq

/-- Handles (`AsyncTaskPtr`) are identified by a numeric id; the model never
fabricates handles, it only moves ids supplied by callers. -/
abbrev HandleId := Nat

/-- Device roles (`otDeviceRole`). -/
inductive DeviceRole where
  | disabled
  | detached
  | child
  | router
  | leader
  deriving DecidableEq

/-- Wire-side roles (`spinel_net_role_t`). -/
inductive SpinelNetRole where
  | detached
  | child
  | router
  | leader
  | disabled
  deriving DecidableEq

/-- `static constexpr uint8_t kMaxTids = 16;` (ncp_spinel.hpp line 174). -/
def kMaxTids : Nat := 16

/-- `static constexpr uint16_t kTxBufferSize = 2048;` (ncp_spinel.hpp line 230). -/
def kTxBufferSize : Nat := 2048

/-- `void FreeTid(spinel_tid_t tid) { mCmdTidsInUse &= ~(1 << tid); }`
(ncp_spinel.hpp line 212).  `mCmdTidsInUse` is a `uint16_t`, so the
complement of the shifted bit is truncated to 16 bits before the bitwise
and, written here with an explicit `% 65536`. -/
def FreeTid (mCmdTidsInUse : Nat) (tid : Nat) : Nat :=
  mCmdTidsInUse &&& (65535 ^^^ ((1 <<< tid) % 65536))

/-- The five lifecycle operations, one per `AsyncTaskPtr` member of
`NcpSpinel` (ncp_spinel.hpp lines 240 to 244). -/
inductive LifecycleKind where
  | datasetSetActive
  | ip6SetEnabled
  | threadSetEnabled
  | threadDetachGracefully
  | threadErasePersistentInfo
  deriving DecidableEq

/-- Spinel property key `SPINEL_PROP_LAST_STATUS`; also the reset value of
`mWaitingKeyTable` entries. -/
def kPropLastStatus : Nat := 0

/-- Spinel property key for IPv6 interface state (`SPINEL_PROP_NET_IF_UP`). -/
def kPropNetIfUp : Nat := 65

/-- Spinel property key for Thread stack state (`SPINEL_PROP_NET_STACK_UP`). -/
def kPropNetStackUp : Nat := 66

/-- Spinel property key for the device role (`SPINEL_PROP_NET_ROLE`). -/
def kPropNetRole : Nat := 67

/-- Spinel property key for graceful leave (`SPINEL_PROP_NET_LEAVE_GRACEFULLY`). -/
def kPropNetLeave : Nat := 68

/-- Spinel property key for the active dataset
(`SPINEL_PROP_THREAD_ACTIVE_DATASET_TLVS`). -/
def kPropThreadActiveDatasetTlvs : Nat := 125

/-- Spinel command id `SPINEL_CMD_PROP_VALUE_IS`. -/
def kCmdPropValueIs : Nat := 6

/-- Spinel command id `SPINEL_CMD_PROP_VALUE_SET`. -/
def kCmdPropValueSet : Nat := 3

/-- Property key a lifecycle operation sets. -/
def keyOf : LifecycleKind → Nat
  | LifecycleKind.datasetSetActive => kPropThreadActiveDatasetTlvs
  | LifecycleKind.ip6SetEnabled => kPropNetIfUp
  | LifecycleKind.threadSetEnabled => kPropNetStackUp
  | LifecycleKind.threadDetachGracefully => kPropNetLeave
  | LifecycleKind.threadErasePersistentInfo => kPropLastStatus

/-- Inverse of `keyOf`: which lifecycle slot a remembered property key
belongs to. -/
def keyToKind (key : Nat) : Option LifecycleKind :=
  if key = kPropThreadActiveDatasetTlvs then some LifecycleKind.datasetSetActive
  else if key = kPropNetIfUp then some LifecycleKind.ip6SetEnabled
  else if key = kPropNetStackUp then some LifecycleKind.threadSetEnabled
  else if key = kPropNetLeave then some LifecycleKind.threadDetachGracefully
  else if key = kPropLastStatus then some LifecycleKind.threadErasePersistentInfo
  else Option.none

/-- The mutable state of `NcpSpinel` that the claims concern: the
transaction-id pool (`mCmdTidsInUse`, `mCmdNextTid`), the per-tid tables
(`mWaitingKeyTable`, `mCmdTable`), the five lifecycle `AsyncTaskPtr` slots,
and the last device role decoded from a notification. -/
structure NcpCore where
  mCmdTidsInUse : Nat
  mCmdNextTid : Nat
  mWaitingKeyTable : Nat → Nat
  mCmdTable : Nat → Nat
  mDatasetSetActiveTask : Option HandleId
  mIp6SetEnabledTask : Option HandleId
  mThreadSetEnabledTask : Option HandleId
  mThreadDetachGracefullyTask : Option HandleId
  mThreadErasePersistentInfoTask : Option HandleId
  deviceRole : DeviceRole

/-- Modelled from the spec: the constructor state — no transaction id in
use, the next-candidate counter at the first assignable id, all lifecycle
slots empty, waiting keys reset to `SPINEL_PROP_LAST_STATUS`. -/
def initCore : NcpCore :=
  { mCmdTidsInUse := 0
    mCmdNextTid := 1
    mWaitingKeyTable := fun _ => kPropLastStatus
    mCmdTable := fun _ => 0
    mDatasetSetActiveTask := Option.none
    mIp6SetEnabledTask := Option.none
    mThreadSetEnabledTask := Option.none
    mThreadDetachGracefullyTask := Option.none
    mThreadErasePersistentInfoTask := Option.none
    deviceRole := DeviceRole.disabled }

/-- Read a lifecycle slot. -/
def getSlot (s : NcpCore) : LifecycleKind → Option HandleId
  | LifecycleKind.datasetSetActive => s.mDatasetSetActiveTask
  | LifecycleKind.ip6SetEnabled => s.mIp6SetEnabledTask
  | LifecycleKind.threadSetEnabled => s.mThreadSetEnabledTask
  | LifecycleKind.threadDetachGracefully => s.mThreadDetachGracefullyTask
  | LifecycleKind.threadErasePersistentInfo => s.mThreadErasePersistentInfoTask

/-- Write a lifecycle slot. -/
def setSlot (s : NcpCore) (k : LifecycleKind) (v : Option HandleId) : NcpCore :=
  match k with
  | LifecycleKind.datasetSetActive => { s with mDatasetSetActiveTask := v }
  | LifecycleKind.ip6SetEnabled => { s with mIp6SetEnabledTask := v }
  | LifecycleKind.threadSetEnabled => { s with mThreadSetEnabledTask := v }
  | LifecycleKind.threadDetachGracefully => { s with mThreadDetachGracefullyTask := v }
  | LifecycleKind.threadErasePersistentInfo => { s with mThreadErasePersistentInfoTask := v }

/-- Modelled from the spec: the cyclic successor of a transaction id used by
the allocation search — ids wrap within the assignable range `[1, 15]`,
skipping the reserved id 0. -/
def succTid (t : Nat) : Nat :=
  if 15 ≤ t then 1 else t + 1

/-- Modelled from the spec: the cyclic search of `GetNextTid` (declared at
ncp_spinel.hpp line 211, body not in the sources) — starting from the
next-candidate counter, skip any id currently marked in use, wrapping
around; the fuel bounds the search to the 15 assignable ids, and running
out of fuel reports exhaustion. -/
def findFreeTid (mask : Nat) : Nat → Nat → Option Nat
  | _, 0 => Option.none
  | t, fuel + 1 => if mask.testBit t then findFreeTid mask (succTid t) fuel else some t

/-- Modelled from the spec: `GetNextTid` — allocate the first free id found
by the cyclic search, mark it in use and advance the next-candidate
counter; report exhaustion (no id) when all 15 assignable ids are in use. -/
def GetNextTid (s : NcpCore) : Option Nat × NcpCore :=
  match findFreeTid s.mCmdTidsInUse s.mCmdNextTid 15 with
  | Option.none => (Option.none, s)
  | some t =>
      (some t,
        { s with
          mCmdTidsInUse := s.mCmdTidsInUse ||| (1 <<< t)
          mCmdNextTid := succTid t })

/-- An allocate or free step on the transaction-id pool. -/
inductive TidOp where
  | alloc
  | free (t : Nat)

/-- One step of the transaction-id pool. -/
def tidStep (s : NcpCore) : TidOp → NcpCore
  | TidOp.alloc => (GetNextTid s).2
  | TidOp.free t => { s with mCmdTidsInUse := FreeTid s.mCmdTidsInUse t }

/-- Run a sequence of allocate/free calls from a state. -/
def runTidOps (s : NcpCore) (ops : List TidOp) : NcpCore :=
  ops.foldl tidStep s

/-- Number of transaction ids marked in use in the 16-bit mask. -/
def countInUse (mask : Nat) : Nat :=
  ((Finset.range 16).filter fun i => mask.testBit i = true).card

/-- Invariant of the transaction-id pool: the mask fits in 16 bits, the
reserved id 0 is never marked in use, and the next-candidate counter stays
in the assignable range. -/
def TidInv (s : NcpCore) : Prop :=
  s.mCmdTidsInUse < 65536 ∧ s.mCmdTidsInUse.testBit 0 = false ∧
    1 ≤ s.mCmdNextTid ∧ s.mCmdNextTid ≤ 15

theorem succTid_bounds (t : Nat) : 1 ≤ succTid t ∧ succTid t ≤ 15 := by
  unfold succTid
  split <;> omega

theorem freeTid_testBit (m tid j : Nat) (ht : tid < 16) :
    (FreeTid m tid).testBit j =
      (m.testBit j && (decide (j < 16) ^^ decide (tid = j))) := by
  have hpow : (1 <<< tid) % 65536 = 2 ^ tid := by
    rw [Nat.shiftLeft_eq, one_mul]
    exact Nat.mod_eq_of_lt (by
      calc 2 ^ tid < 2 ^ 16 := Nat.pow_lt_pow_right (by norm_num) ht
        _ = 65536 := by norm_num)
  have h65535 : (65535 : Nat) = 2 ^ 16 - 1 := by norm_num
  rw [FreeTid, hpow, Nat.testBit_land, Nat.testBit_xor, h65535,
    Nat.testBit_two_pow_sub_one, Nat.testBit_two_pow]

theorem testBit_of_lt_two_pow_16 (m j : Nat) (hm : m < 65536) (hj : 16 ≤ j) :
    m.testBit j = false := by
  apply Nat.testBit_lt_two_pow
  calc m < 65536 := hm
    _ = 2 ^ 16 := by norm_num
    _ ≤ 2 ^ j := Nat.pow_le_pow_right (by norm_num) hj

theorem findFreeTid_some (mask : Nat) :
    ∀ fuel t r, 1 ≤ t → t ≤ 15 → findFreeTid mask t fuel = some r →
      1 ≤ r ∧ r ≤ 15 ∧ mask.testBit r = false := by
  intro fuel
  induction fuel with
  | zero => intro t r _ _ h; simp [findFreeTid] at h
  | succ n ih =>
    intro t r h1 h15 h
    by_cases hb : mask.testBit t
    · have h2 : findFreeTid mask (succTid t) n = some r := by
        simpa [findFreeTid, hb] using h
      exact ih (succTid t) r (succTid_bounds t).1 (succTid_bounds t).2 h2
    · have h2 : t = r := by simpa [findFreeTid, hb] using h
      subst h2
      exact ⟨h1, h15, by simpa using hb⟩

theorem findFreeTid_exhausted (mask : Nat)
    (hAll : ∀ i, 1 ≤ i → i ≤ 15 → mask.testBit i = true) :
    ∀ fuel t, 1 ≤ t → t ≤ 15 → findFreeTid mask t fuel = Option.none := by
  intro fuel
  induction fuel with
  | zero => intro t _ _; rfl
  | succ n ih =>
    intro t h1 h15
    simp only [findFreeTid, hAll t h1 h15, if_pos]
    exact ih (succTid t) (succTid_bounds (t)).1 (succTid_bounds (t)).2

theorem getNextTid_none (s : NcpCore) (h : (GetNextTid s).1 = Option.none) :
    (GetNextTid s).2 = s := by
  unfold GetNextTid at h ⊢
  cases hf : findFreeTid s.mCmdTidsInUse s.mCmdNextTid 15 with
  | none => rfl
  | some t => rw [hf] at h; simp at h

theorem getNextTid_some_spec (s : NcpCore) (t : Nat) (hInv : TidInv s)
    (h : (GetNextTid s).1 = some t) :
    1 ≤ t ∧ t ≤ 15 ∧ s.mCmdTidsInUse.testBit t = false ∧
      (GetNextTid s).2 =
        { s with
          mCmdTidsInUse := s.mCmdTidsInUse ||| (1 <<< t)
          mCmdNextTid := succTid t } := by
  unfold GetNextTid at h ⊢
  cases hf : findFreeTid s.mCmdTidsInUse s.mCmdNextTid 15 with
  | none => rw [hf] at h; simp at h
  | some r =>
    rw [hf] at h
    simp only [Option.some.injEq] at h
    subst h
    have hr := findFreeTid_some s.mCmdTidsInUse 15 s.mCmdNextTid r
      hInv.2.2.1 hInv.2.2.2 hf
    exact ⟨hr.1, hr.2.1, hr.2.2, rfl⟩

theorem tidInv_alloc (s : NcpCore) (h : TidInv s) : TidInv (GetNextTid s).2 := by
  cases hg : (GetNextTid s).1 with
  | none => rw [getNextTid_none s hg]; exact h
  | some t =>
    obtain ⟨h1, h15, _, heq⟩ := getNextTid_some_spec s t h hg
    rw [heq]
    refine ⟨?_, ?_, (succTid_bounds t).1, (succTid_bounds t).2⟩
    · show s.mCmdTidsInUse ||| (1 <<< t) < 65536
      have hlt : (1 <<< t) < 65536 := by
        rw [Nat.shiftLeft_eq, one_mul]
        calc 2 ^ t < 2 ^ 16 := Nat.pow_lt_pow_right (by norm_num) (by omega)
          _ = 65536 := by norm_num
      have hp : (2 : Nat) ^ 16 = 65536 := by norm_num
      have h2 : s.mCmdTidsInUse < 2 ^ 16 := by rw [hp]; exact h.1
      have h3 : (1 <<< t) < 2 ^ 16 := by rw [hp]; exact hlt
      have := Nat.or_lt_two_pow h2 h3
      rw [hp] at this
      exact this
    · show (s.mCmdTidsInUse ||| (1 <<< t)).testBit 0 = false
      rw [Nat.testBit_lor, h.2.1, Nat.shiftLeft_eq, one_mul,
        Nat.testBit_two_pow]
      simp
      omega

theorem tidInv_free (s : NcpCore) (t : Nat) (h : TidInv s) :
    TidInv { s with mCmdTidsInUse := FreeTid s.mCmdTidsInUse t } := by
  refine ⟨?_, ?_, h.2.2.1, h.2.2.2⟩
  · show FreeTid s.mCmdTidsInUse t < 65536
    calc FreeTid s.mCmdTidsInUse t ≤ s.mCmdTidsInUse := Nat.and_le_left
      _ < 65536 := h.1
  · show (FreeTid s.mCmdTidsInUse t).testBit 0 = false
    rw [FreeTid, Nat.testBit_land, h.2.1]
    rfl

theorem tidInv_run (ops : List TidOp) (s : NcpCore) (h : TidInv s) :
    TidInv (runTidOps s ops) := by
  induction ops generalizing s with
  | nil => exact h
  | cons op rest ih =>
    show TidInv (runTidOps (tidStep s op) rest)
    apply ih
    cases op with
    | alloc => exact tidInv_alloc s h
    | free t => exact tidInv_free s t h

theorem tidInv_init : TidInv initCore := by
  refine ⟨by norm_num [initCore], rfl, le_refl 1, by norm_num [initCore]⟩

theorem countInUse_le (mask : Nat) (h0 : mask.testBit 0 = false) :
    countInUse mask ≤ 15 := by
  unfold countInUse
  have hsub : (Finset.range 16).filter (fun i => mask.testBit i = true) ⊆
      (Finset.range 16).erase 0 := by
    intro i hi
    rw [Finset.mem_filter] at hi
    rw [Finset.mem_erase]
    refine ⟨?_, hi.1⟩
    rintro rfl
    rw [h0] at hi
    exact absurd hi.2 (by simp)
  calc ((Finset.range 16).filter (fun i => mask.testBit i = true)).card
      ≤ ((Finset.range 16).erase 0).card := Finset.card_le_card hsub
    _ = 15 := by
        rw [Finset.card_erase_of_mem (by simp), Finset.card_range]

/-- Claim C10: `FreeTid tid` clears exactly the in-use bit for `tid` in
`mCmdTidsInUse` and leaves every other transaction id's in-use bit
unchanged; it is idempotent, and freeing an already-free id leaves the
bitmask unchanged, for every `tid` in `[0, 16)`. -/
theorem freeTid_clears_exactly_its_bit (m tid : Nat) (hm : m < 65536) (ht : tid < 16) :
    (FreeTid m tid).testBit tid = false ∧
    (∀ j, j < 16 → j ≠ tid → (FreeTid m tid).testBit j = m.testBit j) ∧
    FreeTid (FreeTid m tid) tid = FreeTid m tid ∧
    (m.testBit tid = false → FreeTid m tid = m) := by
  refine ⟨?_, ?_, ?_, ?_⟩
  · rw [freeTid_testBit m tid tid ht]
    simp [ht]
  · intro j hj hne
    have hne2 : tid ≠ j := fun hh => hne hh.symm
    rw [freeTid_testBit m tid j ht]
    simp [hj, hne2]
  · apply Nat.eq_of_testBit_eq
    intro j
    rw [freeTid_testBit _ tid j ht, freeTid_testBit m tid j ht,
      Bool.and_assoc, Bool.and_self]
  · intro hfree
    apply Nat.eq_of_testBit_eq
    intro j
    rw [freeTid_testBit m tid j ht]
    by_cases hj : j < 16
    · by_cases hjt : tid = j
      · subst hjt
        simp [hj, hfree]
      · simp [hj, hjt]
    · have hge : 16 ≤ j := by omega
      have hmj : m.testBit j = false := testBit_of_lt_two_pow_16 m j hm hge
      have hjt : tid ≠ j := by omega
      simp [hj, hjt, hmj]

/-- Witness for the C10 theorem at `m = 6`, `tid = 2`. -/
theorem freeTid_clears_exactly_its_bit_witness :
    (FreeTid 6 2).testBit 2 = false ∧ FreeTid (FreeTid 6 2) 2 = FreeTid 6 2 :=
  ⟨(freeTid_clears_exactly_its_bit 6 2 (by norm_num) (by norm_num)).1,
   (freeTid_clears_exactly_its_bit 6 2 (by norm_num) (by norm_num)).2.2.1⟩

/-- Claim C1: for every sequence of allocate (`GetNextTid`) and free
(`FreeTid`) calls from the initial state, at most `kMaxTids - 1 = 15`
transaction ids are simultaneously in use (id 0 is reserved for
notifications), a successful `GetNextTid` never returns 0 and never returns
an id currently marked in use in `mCmdTidsInUse`, and `GetNextTid` reports
exhaustion when all 15 assignable ids are in use. -/
theorem getNextTid_pool_invariant (ops : List TidOp) :
    countInUse (runTidOps initCore ops).mCmdTidsInUse ≤ kMaxTids - 1 ∧
    (∀ t, (GetNextTid (runTidOps initCore ops)).1 = some t →
      t ≠ 0 ∧ (runTidOps initCore ops).mCmdTidsInUse.testBit t = false) ∧
    ((∀ i, 1 ≤ i → i ≤ 15 → (runTidOps initCore ops).mCmdTidsInUse.testBit i = true) →
      (GetNextTid (runTidOps initCore ops)).1 = Option.none) := by
  have hInv := tidInv_run ops initCore tidInv_init
  refine ⟨countInUse_le _ hInv.2.1, ?_, ?_⟩
  · intro t ht
    obtain ⟨h1, _, hfree, _⟩ := getNextTid_some_spec _ t hInv ht
    exact ⟨by omega, hfree⟩
  · intro hAll
    unfold GetNextTid
    rw [findFreeTid_exhausted _ hAll 15 _ hInv.2.2.1 hInv.2.2.2]

/-- Witness for the C1 theorem: after the empty call sequence an allocation
returns id 1, which is not 0 and not in use. -/
theorem getNextTid_pool_invariant_witness :
    (1 : Nat) ≠ 0 ∧ (runTidOps initCore []).mCmdTidsInUse.testBit 1 = false :=
  (getNextTid_pool_invariant []).2.1 1 rfl

/-- `static void CallAndClear(AsyncTaskPtr &aResult, otError aError, ...)`
(ncp_spinel.hpp lines 185 to 192): if the stored pointer is non-null, set
the result on the handle and null the pointer; otherwise do nothing.  The
model returns the new slot value together with the list of `SetResult`
events performed (one event per `SetResult` call). -/
def CallAndClear (aResult : Option HandleId) (aError : OtError) :
    Option HandleId × List (HandleId × OtError) :=
  match aResult with
  | some h => (Option.none, [(h, aError)])
  | Option.none => (aResult, [])

/-- A sequence of completion attempts against one slot, each with its own
error value; models any interleaving of responses, errors and teardown all
trying to complete the same stored handle. -/
def runCompletions (slot : Option HandleId) (errs : List OtError) :
    Option HandleId × List (HandleId × OtError) :=
  match errs with
  | [] => (slot, [])
  | e :: rest =>
      let r1 := CallAndClear slot e
      let r2 := runCompletions r1.1 rest
      (r2.1, r1.2 ++ r2.2)

/-- Modelled from the spec: translation of the wire role encoding to the
internal role enumeration (`SpinelRoleToDeviceRole` is declared at
ncp_spinel.hpp line 204; its body is not in the sources). -/
def SpinelRoleToDeviceRole : SpinelNetRole → DeviceRole
  | SpinelNetRole.detached => DeviceRole.detached
  | SpinelNetRole.child => DeviceRole.child
  | SpinelNetRole.router => DeviceRole.router
  | SpinelNetRole.leader => DeviceRole.leader
  | SpinelNetRole.disabled => DeviceRole.disabled

/-- Decode a wire byte into a `spinel_net_role_t` value; bytes outside the
enumeration are a malformed payload. -/
def spinelNetRoleOfNat (n : Nat) : Option SpinelNetRole :=
  if n = 0 then some SpinelNetRole.detached
  else if n = 1 then some SpinelNetRole.child
  else if n = 2 then some SpinelNetRole.router
  else if n = 3 then some SpinelNetRole.leader
  else if n = 4 then some SpinelNetRole.disabled
  else Option.none

/-- An already-deframed spinel frame body: command id, property key,
opaque payload bytes. -/
structure Frame where
  cmd : Nat
  key : Nat
  payload : List Nat

/-- A frame handed to the transport for transmission. -/
structure TxFrame where
  tid : Nat
  cmd : Nat
  key : Nat
  payload : List Nat

/-- `SPINEL_HEADER_GET_TID`: the low four bits of the header byte. -/
def headerGetTid (aHeader : Nat) : Nat := aHeader &&& 15

/-- Modelled from the spec: map a decoded `SPINEL_PROP_LAST_STATUS` payload
to success or the mapped failure. -/
def otErrorFromSpinelStatus (status : Nat) : OtError :=
  if status = 0 then OtError.ok else OtError.failed

/-- Modelled from the spec: destroy the transaction slot for `tid` — free
the transaction id and reset the per-tid table entries. -/
def clearTransaction (s : NcpCore) (tid : Nat) : NcpCore :=
  { s with
    mCmdTidsInUse := FreeTid s.mCmdTidsInUse tid
    mWaitingKeyTable := fun i => if i = tid then kPropLastStatus else s.mWaitingKeyTable i
    mCmdTable := fun i => if i = tid then 0 else s.mCmdTable i }

/-- Modelled from the spec: complete the lifecycle slot owning a remembered
property key via `CallAndClear`; a key owned by no lifecycle slot completes
nothing. -/
def completeForKey (s : NcpCore) (key : Nat) (err : OtError) :
    NcpCore × List (HandleId × OtError) :=
  match keyToKind key with
  | Option.none => (s, [])
  | some k =>
      let r := CallAndClear (getSlot s k) err
      (setSlot s k r.1, r.2)

/-- Modelled from the spec: `HandleResponseForCommand` (declared at
ncp_spinel.hpp line 209) — the transaction id is freed and its slot entries
cleared first, and only then is the pending handle for the remembered
property key completed with the decoded result. -/
def HandleResponseForCommand (s : NcpCore) (aTid : Nat) (aError : OtError) :
    NcpCore × List (HandleId × OtError) :=
  let key := s.mWaitingKeyTable aTid
  completeForKey (clearTransaction s aTid) key aError

/-- Modelled from the spec: `HandleResponse` (declared at ncp_spinel.hpp
line 207) — a response whose transaction id is not marked in use is
silently discarded; otherwise the result is decoded (a property echo of the
remembered key is success, a `LAST_STATUS` reply carries a mapped status)
and handed to `HandleResponseForCommand`. -/
def HandleResponse (s : NcpCore) (aTid : Nat) (f : Frame) :
    NcpCore × List (HandleId × OtError) :=
  if s.mCmdTidsInUse.testBit aTid then
    let err :=
      if f.key = s.mWaitingKeyTable aTid then OtError.ok
      else if f.key = kPropLastStatus then otErrorFromSpinelStatus (f.payload.headD 1)
      else OtError.failed
    HandleResponseForCommand s aTid err
  else (s, [])

/-- Modelled from the spec: `HandleValueIs` (declared at ncp_spinel.hpp
line 208) — a device-role notification decodes the role byte, translates it
via `SpinelRoleToDeviceRole`, stores it and invokes the observer's
`SetDeviceRole`; an unrecognized key, or a malformed role payload, is
discarded without error.  The second component lists the observer
invocations. -/
def HandleValueIs (s : NcpCore) (aKey : Nat) (aBuffer : List Nat) :
    NcpCore × List DeviceRole :=
  if aKey = kPropNetRole then
    match aBuffer with
    | [] => (s, [])
    | b :: _ =>
        match spinelNetRoleOfNat b with
        | Option.none => (s, [])
        | some r =>
            let role := SpinelRoleToDeviceRole r
            ({ s with deviceRole := role }, [role])
  else (s, [])

/-- Modelled from the spec: `HandleNotification` (declared at
ncp_spinel.hpp line 206) — only `PROP_VALUE_IS` notifications are decoded. -/
def HandleNotification (s : NcpCore) (f : Frame) : NcpCore × List DeviceRole :=
  if f.cmd = kCmdPropValueIs then HandleValueIs s f.key f.payload else (s, [])

/-- Modelled from the spec: classification of an incoming frame by the
transaction id in its header — id 0 takes the notification path, a nonzero
id the response path.  Output: new state, completion events, observer
invocations. -/
def HandleReceivedFrame (s : NcpCore) (aHeader : Nat) (f : Frame) :
    NcpCore × List (HandleId × OtError) × List DeviceRole :=
  if headerGetTid aHeader = 0 then
    let r := HandleNotification s f
    (r.1, [], r.2)
  else
    let r := HandleResponse s (headerGetTid aHeader) f
    (r.1, r.2, [])

/-- Outcome of running an `EncodingFunc` into the bounded transmit buffer:
either the encoded payload bytes or a synchronous encoding error. -/
inductive EncodeResult where
  | ok (payload : List Nat)
  | err

/-- Modelled from the spec: `SetProperty` (declared at ncp_spinel.hpp line
215) — allocate a transaction id (exhaustion fails synchronously); run the
encoding function into the `kTxBufferSize`-byte transmit buffer (an
encoding error, or a frame that would exceed the buffer, fails
synchronously and releases the id); hand the frame to the transport (a
rejection fails synchronously and releases the id); on success remember
the property key and command id for the transaction.  The frame overhead
is the header byte, the command id and the property key.  Output: result,
new state, frames handed to the transport. -/
def SetProperty (s : NcpCore) (aKey : Nat) (enc : EncodeResult) (transportOk : Bool) :
    OtError × NcpCore × List TxFrame :=
  match (GetNextTid s).1 with
  | Option.none => (OtError.noBufs, (GetNextTid s).2, [])
  | some tid =>
      let s1 := (GetNextTid s).2
      match enc with
      | EncodeResult.err =>
          (OtError.noBufs, { s1 with mCmdTidsInUse := FreeTid s1.mCmdTidsInUse tid }, [])
      | EncodeResult.ok payload =>
          if kTxBufferSize < 3 + payload.length then
            (OtError.noBufs, { s1 with mCmdTidsInUse := FreeTid s1.mCmdTidsInUse tid }, [])
          else if transportOk then
            (OtError.ok,
              { s1 with
                mWaitingKeyTable := fun i => if i = tid then aKey else s1.mWaitingKeyTable i
                mCmdTable := fun i => if i = tid then kCmdPropValueSet else s1.mCmdTable i },
              [{ tid := tid, cmd := kCmdPropValueSet, key := aKey, payload := payload }])
          else
            (OtError.failed, { s1 with mCmdTidsInUse := FreeTid s1.mCmdTidsInUse tid }, [])

/-- Modelled from the spec: the shared shape of the five public lifecycle
operations (`DatasetSetActiveTlvs`, `Ip6SetEnabled`, `ThreadSetEnabled`,
`ThreadDetachGracefully`, `ThreadErasePersistentInfo`) — if the operation's
slot is occupied the new handle is completed synchronously with
`OT_ERROR_BUSY` and nothing else happens; otherwise `SetProperty` runs, and
on success the handle is stored in the slot while on failure it is
completed synchronously with the error. -/
def dispatchLifecycle (s : NcpCore) (k : LifecycleKind) (h : HandleId)
    (enc : EncodeResult) (transportOk : Bool) :
    NcpCore × List (HandleId × OtError) × List TxFrame :=
  match getSlot s k with
  | some _ => (s, [(h, OtError.busy)], [])
  | Option.none =>
      let r := SetProperty s (keyOf k) enc transportOk
      if r.1 = OtError.ok then (setSlot r.2.1 k (some h), [], r.2.2)
      else (r.2.1, [(h, r.1)], r.2.2)

/-- Modelled from the spec: `Deinit` (declared at ncp_spinel.hpp line 105)
— every still-occupied lifecycle slot is completed with `OT_ERROR_ABORT`
via `CallAndClear`, and the in-use transaction-id bitmask is cleared. -/
def Deinit (s : NcpCore) : NcpCore × List (HandleId × OtError) :=
  let r1 := CallAndClear s.mDatasetSetActiveTask OtError.abort
  let r2 := CallAndClear s.mIp6SetEnabledTask OtError.abort
  let r3 := CallAndClear s.mThreadSetEnabledTask OtError.abort
  let r4 := CallAndClear s.mThreadDetachGracefullyTask OtError.abort
  let r5 := CallAndClear s.mThreadErasePersistentInfoTask OtError.abort
  ({ s with
      mCmdTidsInUse := 0
      mDatasetSetActiveTask := r1.1
      mIp6SetEnabledTask := r2.1
      mThreadSetEnabledTask := r3.1
      mThreadDetachGracefullyTask := r4.1
      mThreadErasePersistentInfoTask := r5.1 },
    r1.2 ++ r2.2 ++ r3.2 ++ r4.2 ++ r5.2)

theorem callAndClear_fst (o : Option HandleId) (e : OtError) :
    (CallAndClear o e).1 = Option.none := by
  cases o <;> rfl

theorem runCompletions_none (errs : List OtError) :
    runCompletions Option.none errs = (Option.none, []) := by
  induction errs with
  | nil => rfl
  | cons e rest ih => simp [runCompletions, CallAndClear, ih]

/-- Claim C2: every pending operation handle has its result set exactly
once: after `CallAndClear` sets the result it nulls the stored pointer, so
any later completion attempt on the same slot is a no-op and no handle is
ever double-completed, for every sequence of completion attempts. -/
theorem callAndClear_completes_exactly_once (slot : Option HandleId) (e1 e2 : OtError)
    (errs : List OtError) :
    (CallAndClear slot e1).1 = Option.none ∧
    (CallAndClear (CallAndClear slot e1).1 e2).2 = [] ∧
    (runCompletions slot errs).2.length ≤ 1 ∧
    (∀ h e rest, slot = some h → errs = e :: rest →
      (runCompletions slot errs).2 = [(h, e)]) ∧
    (slot = Option.none → (runCompletions slot errs).2 = []) := by
  refine ⟨callAndClear_fst slot e1, ?_, ?_, ?_, ?_⟩
  · rw [callAndClear_fst slot e1]
    rfl
  · cases slot with
    | none => rw [runCompletions_none]; simp
    | some h =>
      cases errs with
      | nil => simp [runCompletions]
      | cons e rest =>
        simp [runCompletions, CallAndClear, runCompletions_none]
  · intro h e rest hs he
    subst hs; subst he
    simp [runCompletions, CallAndClear, runCompletions_none]
  · intro hs
    subst hs
    rw [runCompletions_none]

/-- Witness for the C2 theorem: a slot holding handle 7 hit by two
completion attempts is completed exactly once, with the first result. -/
theorem callAndClear_completes_exactly_once_witness :
    (runCompletions (some 7) [OtError.abort, OtError.busy]).2 = [(7, OtError.abort)] :=
  (callAndClear_completes_exactly_once (some 7) OtError.ok OtError.ok
    [OtError.abort, OtError.busy]).2.2.2.1 7 OtError.abort [OtError.busy] rfl rfl

/-- Claim C3: for every lifecycle operation kind, a second call of the same
kind while the first is still pending completes the second caller's handle
synchronously with `OT_ERROR_BUSY`, encodes and transmits no frame, and
leaves the first pending handle's slot and eventual completion unchanged. -/
theorem lifecycle_busy_rejection (s : NcpCore) (k : LifecycleKind) (h h0 : HandleId)
    (enc : EncodeResult) (transportOk : Bool) (hBusy : getSlot s k = some h0) :
    dispatchLifecycle s k h enc transportOk = (s, [(h, OtError.busy)], []) ∧
    getSlot (dispatchLifecycle s k h enc transportOk).1 k = some h0 ∧
    (∀ tid f, HandleResponse (dispatchLifecycle s k h enc transportOk).1 tid f
      = HandleResponse s tid f) := by
  have h1 : dispatchLifecycle s k h enc transportOk = (s, [(h, OtError.busy)], []) := by
    unfold dispatchLifecycle
    rw [hBusy]
  refine ⟨h1, ?_, ?_⟩
  · rw [h1]; exact hBusy
  · intro tid f; rw [h1]

/-- A state whose dataset-set-active slot already holds handle 7. -/
def busySampleCore : NcpCore := { initCore with mDatasetSetActiveTask := some 7 }

/-- Witness for the C3 theorem: with handle 7 pending, a second
dataset-set-active call with handle 9 is rejected busy with no transmission. -/
theorem lifecycle_busy_rejection_witness :
    dispatchLifecycle busySampleCore LifecycleKind.datasetSetActive 9
      (EncodeResult.ok []) true = (busySampleCore, [(9, OtError.busy)], []) :=
  (lifecycle_busy_rejection busySampleCore LifecycleKind.datasetSetActive 9 7
    (EncodeResult.ok []) true rfl).1

theorem completeForKey_tids (s : NcpCore) (key : Nat) (err : OtError) :
    (completeForKey s key err).1.mCmdTidsInUse = s.mCmdTidsInUse := by
  unfold completeForKey
  cases keyToKind key with
  | none => rfl
  | some k => cases k <;> rfl

theorem findFreeTid_hit (mask t fuel : Nat) (hf : fuel ≠ 0)
    (h : mask.testBit t = false) : findFreeTid mask t fuel = some t := by
  cases fuel with
  | zero => exact absurd rfl hf
  | succ n => simp [findFreeTid, h]

/-- Claim C4: when a matching response is handled, the transaction id is
freed and its slot entries cleared before the pending handle's completion
is invoked — `HandleResponseForCommand` completes on the already-cleared
state, the id stays free afterwards, and an allocation issued from the
completion callback can immediately obtain that id. -/
theorem response_frees_tid_before_completion (s : NcpCore) (tid : Nat) (err : OtError)
    (ht : tid < 16) :
    HandleResponseForCommand s tid err
      = completeForKey (clearTransaction s tid) (s.mWaitingKeyTable tid) err ∧
    (clearTransaction s tid).mCmdTidsInUse.testBit tid = false ∧
    (HandleResponseForCommand s tid err).1.mCmdTidsInUse.testBit tid = false ∧
    ((HandleResponseForCommand s tid err).1.mCmdNextTid = tid →
      (GetNextTid (HandleResponseForCommand s tid err).1).1 = some tid) := by
  have hclear : (clearTransaction s tid).mCmdTidsInUse.testBit tid = false := by
    show (FreeTid s.mCmdTidsInUse tid).testBit tid = false
    rw [freeTid_testBit _ _ _ ht]
    simp [ht]
  have hpost : (HandleResponseForCommand s tid err).1.mCmdTidsInUse.testBit tid = false := by
    unfold HandleResponseForCommand
    rw [completeForKey_tids]
    exact hclear
  refine ⟨rfl, hclear, hpost, ?_⟩
  intro hnext
  unfold GetNextTid
  rw [hnext, findFreeTid_hit _ _ 15 (by norm_num) hpost]

/-- A state with transaction id 1 outstanding for the IPv6-enable
operation, handle 4 pending. -/
def respSampleCore : NcpCore :=
  { initCore with
    mCmdTidsInUse := 2
    mWaitingKeyTable := fun i => if i = 1 then kPropNetIfUp else kPropLastStatus
    mIp6SetEnabledTask := some 4 }

/-- Witness for the C4 theorem: handling the response for transaction id 1
leaves id 1 free. -/
theorem response_frees_tid_before_completion_witness :
    (HandleResponseForCommand respSampleCore 1 OtError.ok).1.mCmdTidsInUse.testBit 1 = false :=
  (response_frees_tid_before_completion respSampleCore 1 OtError.ok (by norm_num)).2.2.1

/-- Claim C5: an incoming frame whose nonzero transaction id does not match
any in-use transaction id is discarded silently — the state, every pending
handle and the in-use bitmask are unchanged and no completion happens. -/
theorem stale_response_discarded (s : NcpCore) (tid : Nat) (f : Frame)
    (h : s.mCmdTidsInUse.testBit tid = false) :
    HandleResponse s tid f = (s, []) := by
  simp [HandleResponse, h]

/-- Witness for the C5 theorem: a response with the unused id 3 is
discarded in the initial state. -/
theorem stale_response_discarded_witness :
    HandleResponse initCore 3 { cmd := 6, key := 0, payload := [] } = (initCore, []) :=
  stale_response_discarded initCore 3 { cmd := 6, key := 0, payload := [] } rfl

theorem freeTid_lor (m t : Nat) (hm : m < 65536) (h1 : 1 ≤ t) (h15 : t ≤ 15)
    (hfree : m.testBit t = false) :
    FreeTid (m ||| (1 <<< t)) t = m := by
  have ht : t < 16 := by omega
  apply Nat.eq_of_testBit_eq
  intro j
  rw [freeTid_testBit _ t j ht, Nat.testBit_lor, Nat.shiftLeft_eq, one_mul,
    Nat.testBit_two_pow]
  by_cases hj : j < 16
  · by_cases hjt : t = j
    · subst hjt
      simp [hj, hfree]
    · simp [hj, hjt]
  · have hmj : m.testBit j = false := testBit_of_lt_two_pow_16 m j hm (by omega)
    have hjt : t ≠ j := by omega
    simp [hj, hjt, hmj]

theorem getNextTid_slots (s : NcpCore) (k2 : LifecycleKind) :
    getSlot (GetNextTid s).2 k2 = getSlot s k2 := by
  unfold GetNextTid
  cases findFreeTid s.mCmdTidsInUse s.mCmdNextTid 15 with
  | none => rfl
  | some t => cases k2 <;> rfl

theorem setProperty_fail_cases (s : NcpCore) (key : Nat) (enc : EncodeResult)
    (transportOk : Bool) (hInv : TidInv s)
    (hFail : (SetProperty s key enc transportOk).1 ≠ OtError.ok) :
    (SetProperty s key enc transportOk).2.1.mCmdTidsInUse = s.mCmdTidsInUse ∧
    (∀ k2, getSlot (SetProperty s key enc transportOk).2.1 k2 = getSlot s k2) ∧
    (SetProperty s key enc transportOk).2.2 = [] := by
  cases hg : (GetNextTid s).1 with
  | none =>
    have h2 := getNextTid_none s hg
    simp [SetProperty, hg, h2]
  | some tid =>
    obtain ⟨h1, h15, hfree, heq⟩ := getNextTid_some_spec s tid hInv hg
    have hmask : FreeTid ((GetNextTid s).2).mCmdTidsInUse tid = s.mCmdTidsInUse := by
      rw [heq]
      exact freeTid_lor s.mCmdTidsInUse tid hInv.1 h1 h15 hfree
    have hslots : ∀ k2, getSlot (GetNextTid s).2 k2 = getSlot s k2 :=
      getNextTid_slots s
    simp only [SetProperty, hg] at hFail ⊢
    cases enc with
    | err =>
      refine ⟨hmask, ?_, rfl⟩
      intro k2
      rw [← hslots k2]
      cases k2 <;> rfl
    | ok payload =>
      by_cases hlen : kTxBufferSize < 3 + payload.length
      · simp only [if_pos hlen]
        refine ⟨hmask, ?_, by first | rfl | trivial⟩
        intro k2
        rw [← hslots k2]
        cases k2 <;> rfl
      · simp only [if_neg hlen] at hFail ⊢
        cases transportOk with
        | true => simp at hFail
        | false =>
          simp only [if_neg (by simp : ¬(false = true))] at hFail ⊢
          refine ⟨hmask, ?_, by first | rfl | trivial⟩
          intro k2
          rw [← hslots k2]
          cases k2 <;> rfl

/-- Claim C6: for every synchronous failure of `SetProperty` (transaction-id
exhaustion, encoding that would overflow the fixed 2048-byte transmit
buffer, or transport rejection), the public lifecycle operation fails
synchronously — the caller's handle is completed at once with the error, no
pending handle is stored in any lifecycle slot, no frame reaches the
transport, and the in-use transaction-id bitmask is exactly what it was
before the call. -/
theorem setProperty_failure_is_clean (s : NcpCore) (k : LifecycleKind) (h : HandleId)
    (enc : EncodeResult) (transportOk : Bool) (hInv : TidInv s)
    (hSlot : getSlot s k = Option.none)
    (hFail : (SetProperty s (keyOf k) enc transportOk).1 ≠ OtError.ok) :
    dispatchLifecycle s k h enc transportOk
      = ((SetProperty s (keyOf k) enc transportOk).2.1,
          [(h, (SetProperty s (keyOf k) enc transportOk).1)], []) ∧
    (SetProperty s (keyOf k) enc transportOk).2.1.mCmdTidsInUse = s.mCmdTidsInUse ∧
    (∀ k2, getSlot (SetProperty s (keyOf k) enc transportOk).2.1 k2 = getSlot s k2) ∧
    (SetProperty s (keyOf k) enc transportOk).2.2 = [] := by
  have hsp := setProperty_fail_cases s (keyOf k) enc transportOk hInv hFail
  have hd : dispatchLifecycle s k h enc transportOk
      = ((SetProperty s (keyOf k) enc transportOk).2.1,
          [(h, (SetProperty s (keyOf k) enc transportOk).1)], []) := by
    unfold dispatchLifecycle
    rw [hSlot]
    simp only [if_neg hFail, hsp.2.2]
  exact ⟨hd, hsp.1, hsp.2.1, hsp.2.2⟩

/-- Witness for the C6 theorem: an encoding failure on an IPv6-enable call
from the initial state completes handle 9 synchronously, stores nothing and
leaves the bitmask untouched. -/
theorem setProperty_failure_is_clean_witness :
    (SetProperty initCore (keyOf LifecycleKind.ip6SetEnabled) EncodeResult.err
      true).2.1.mCmdTidsInUse = initCore.mCmdTidsInUse :=
  (setProperty_failure_is_clean initCore LifecycleKind.ip6SetEnabled 9 EncodeResult.err
    true tidInv_init rfl (by decide)).2.1

/-- One `OT_ERROR_ABORT` completion event per occupied slot. -/
def abortEvents (slot : Option HandleId) : List (HandleId × OtError) :=
  match slot with
  | some h => [(h, OtError.abort)]
  | Option.none => []

theorem callAndClear_abort_snd (o : Option HandleId) :
    (CallAndClear o OtError.abort).2 = abortEvents o := by
  cases o <;> rfl

/-- Claim C7: `Deinit` completes every still-pending lifecycle handle with
an `OT_ERROR_ABORT` result, exactly once per occupied slot, and leaves no
transaction id allocated: afterwards all five lifecycle slots are empty and
the in-use bitmask is clear. -/
theorem deinit_aborts_everything (s : NcpCore) :
    (∀ k, getSlot (Deinit s).1 k = Option.none) ∧
    (Deinit s).1.mCmdTidsInUse = 0 ∧
    (Deinit s).2 =
      abortEvents s.mDatasetSetActiveTask ++ abortEvents s.mIp6SetEnabledTask ++
      abortEvents s.mThreadSetEnabledTask ++ abortEvents s.mThreadDetachGracefullyTask ++
      abortEvents s.mThreadErasePersistentInfoTask ∧
    (∀ k hId, getSlot s k = some hId → (hId, OtError.abort) ∈ (Deinit s).2) := by
  refine ⟨?_, rfl, ?_, ?_⟩
  · intro k
    cases k <;> simp [Deinit, getSlot, callAndClear_fst]
  · show (Deinit s).2 = _
    simp [Deinit, callAndClear_abort_snd]
  · intro k hId hk
    have hev : (Deinit s).2 =
        abortEvents s.mDatasetSetActiveTask ++ abortEvents s.mIp6SetEnabledTask ++
        abortEvents s.mThreadSetEnabledTask ++ abortEvents s.mThreadDetachGracefullyTask ++
        abortEvents s.mThreadErasePersistentInfoTask := by
      simp [Deinit, callAndClear_abort_snd]
    rw [hev]
    cases k <;> (simp [getSlot] at hk; simp [abortEvents, hk])

/-- A state with transaction id 2 in use and handle 11 pending on the
thread-enable slot. -/
def deinitSampleCore : NcpCore :=
  { initCore with mCmdTidsInUse := 4, mThreadSetEnabledTask := some 11 }

/-- Witness for the C7 theorem: tearing down `deinitSampleCore` aborts the
pending handle 11. -/
theorem deinit_aborts_everything_witness :
    (11, OtError.abort) ∈ (Deinit deinitSampleCore).2 :=
  (deinit_aborts_everything deinitSampleCore).2.2.2 LifecycleKind.threadSetEnabled 11 rfl

/-- Claim C8: a frame whose header carries transaction id 0 takes the
notification path: a `PROP_VALUE_IS` device-role notification decodes the
role byte, translates it via `SpinelRoleToDeviceRole`, updates the stored
device role and invokes the observer's `SetDeviceRole`, completing no
pending handle; a notification with an unrecognized property key is
discarded without error, without touching any pending handle or
transaction slot. -/
theorem notification_path_spec (s : NcpCore) (aHeader : Nat) (f : Frame)
    (h0 : headerGetTid aHeader = 0) :
    (∀ b rest r, f.cmd = kCmdPropValueIs → f.key = kPropNetRole →
      f.payload = b :: rest → spinelNetRoleOfNat b = some r →
      HandleReceivedFrame s aHeader f =
        ({ s with deviceRole := SpinelRoleToDeviceRole r }, [],
          [SpinelRoleToDeviceRole r])) ∧
    (f.key ≠ kPropNetRole → HandleReceivedFrame s aHeader f = (s, [], [])) := by
  constructor
  · intro b rest r hcmd hkey hpay hrole
    simp [HandleReceivedFrame, h0, HandleNotification, hcmd, HandleValueIs, hkey,
      hpay, hrole]
  · intro hkey
    by_cases hcmd : f.cmd = kCmdPropValueIs
    · simp [HandleReceivedFrame, h0, HandleNotification, hcmd, HandleValueIs, hkey]
    · simp [HandleReceivedFrame, h0, HandleNotification, hcmd]

/-- Witness for the C8 theorem: a role notification carrying the leader
role byte updates the stored role and notifies the observer once. -/
theorem notification_path_spec_witness :
    HandleReceivedFrame initCore 0 { cmd := 6, key := 67, payload := [3] } =
      ({ initCore with deviceRole := DeviceRole.leader }, [], [DeviceRole.leader]) :=
  (notification_path_spec initCore 0 { cmd := 6, key := 67, payload := [3] } rfl).1
    3 [] SpinelNetRole.leader rfl rfl rfl rfl

/-- Claim C9 counterexample: with the last known device role already
`leader`, a decoded device-role notification carrying `leader` again still
invokes the observer's `SetDeviceRole` — the claim that a repeated role
does not invoke the observer is false. -/
theorem repeated_role_still_invokes_observer :
    ({ initCore with deviceRole := DeviceRole.leader } : NcpCore).deviceRole
        = DeviceRole.leader ∧
    (HandleValueIs { initCore with deviceRole := DeviceRole.leader }
        kPropNetRole [3]).2 = [DeviceRole.leader] :=
  ⟨rfl, rfl⟩

/-- Claim C9 amended: the observer's `SetDeviceRole` is invoked exactly
once per successfully decoded device-role notification, including when the
decoded role equals the last known device role; de-duplication is left to
the observer. -/
theorem observer_invoked_per_decoded_notification (s : NcpCore) (b : Nat)
    (rest : List Nat) (r : SpinelNetRole) (hb : spinelNetRoleOfNat b = some r) :
    (HandleValueIs s kPropNetRole (b :: rest)).2 = [SpinelRoleToDeviceRole r] := by
  simp [HandleValueIs, hb]

/-- Witness for the amended C9 theorem: a router-role notification invokes
the observer once even from a state already in the router role. -/
theorem observer_invoked_per_decoded_notification_witness :
    (HandleValueIs { initCore with deviceRole := DeviceRole.router }
        kPropNetRole [2]).2 = [SpinelRoleToDeviceRole SpinelNetRole.router] :=
  observer_invoked_per_decoded_notification
    { initCore with deviceRole := DeviceRole.router } 2 [] SpinelNetRole.router rfl

end Otbr
